import Mathlib

/-!
# Verification of the multi-agent support chat orchestration (src/app.py)

A shallow embedding of the orchestration logic of `src/app.py`: the
conversation context record, the four-agent handoff graph with its one
side-effecting hook, the two tools (`faq_lookup_tool`, `update_user_name`),
the per-turn message loop `main`, and the session initialisation
`on_chat_start`.  External services (the hosted agent runtime and the chat
completions API) are modelled as parameters: the outcome of a remote run is
an `Except`, the stream of remote events is a list, thread creation is a
family of fresh identifiers, and `random.randint` is a seed-indexed value.
-/

set_option autoImplicit false

namespace MultiAgentPOC

/-- The `MultiAgentContext` pydantic model of `src/app.py` (lines 59-63):
four optional string fields, all defaulting to `None`. -/
structure MultiAgentContext where
  user_name : Option String := none
  image_path : Option String := none
  birth_date : Option String := none
  user_id : Option String := none
deriving DecidableEq, Repr

/-- The four agent personas constructed in `src/app.py`:
`triage_agent`, `faq_agent`, `account_management_agent`, `live_agent`. -/
inductive AgentName where
  | Triage
  | FAQ
  | AccountManagement
  | Live
deriving DecidableEq, Repr

/-- The `on_handoff` hooks attached to handoff edges.  The program attaches
exactly one hook, `on_account_management_handoff`, to the
Triage → AccountManagement edge (`src/app.py` line 242). -/
inductive Hook where
  | onAccountManagementHandoff
deriving DecidableEq, Repr

/-- A handoff edge as declared on an agent: the target agent and the
optional `on_handoff` hook. -/
structure HandoffDecl where
  target : AgentName
  hook : Option Hook
deriving DecidableEq, Repr

/-- The handoff list of `triage_agent` as constructed (`src/app.py`
lines 241-245): `handoff(account_management_agent, on_handoff =
on_account_management_handoff)`, then `faq_agent`, then `live_agent`. -/
def triage_agent_handoffs : List HandoffDecl :=
  [⟨.AccountManagement, some .onAccountManagementHandoff⟩,
   ⟨.FAQ, none⟩,
   ⟨.Live, none⟩]

/-- `faq_agent` is constructed with no handoffs (`src/app.py` lines
165-180); the `agents` SDK defaults the handoff list to empty. -/
def faq_agent_handoffs_init : List HandoffDecl := []

/-- `account_management_agent` is constructed with no handoffs
(`src/app.py` lines 182-198). -/
def account_management_agent_handoffs_init : List HandoffDecl := []

/-- `live_agent` is constructed with no handoffs (`src/app.py` lines
200-226). -/
def live_agent_handoffs_init : List HandoffDecl := []

/-- `faq_agent.handoffs.append(triage_agent)` (`src/app.py` line 252). -/
def faq_agent_handoffs : List HandoffDecl :=
  faq_agent_handoffs_init ++ [⟨.Triage, none⟩]

/-- `account_management_agent.handoffs.append(triage_agent)`
(`src/app.py` line 253). -/
def account_management_agent_handoffs : List HandoffDecl :=
  account_management_agent_handoffs_init ++ [⟨.Triage, none⟩]

/-- `live_agent.handoffs.append(triage_agent)` (`src/app.py` line 254). -/
def live_agent_handoffs : List HandoffDecl :=
  live_agent_handoffs_init ++ [⟨.Triage, none⟩]

/-- The handoff list of each agent after construction, i.e. after the
three `append` statements of `src/app.py` lines 252-254 have run. -/
def handoffsOf : AgentName → List HandoffDecl
  | .Triage => triage_agent_handoffs
  | .FAQ => faq_agent_handoffs
  | .AccountManagement => account_management_agent_handoffs
  | .Live => live_agent_handoffs

/-- The outbound handoff targets of an agent. -/
def handoffTargets (a : AgentName) : List AgentName :=
  (handoffsOf a).map HandoffDecl.target

/-- The edge relation of the handoff graph after construction. -/
def hasEdge (a b : AgentName) : Bool :=
  b ∈ handoffTargets a

/-- A (simple, directed) cycle in the handoff graph: a nonempty duplicate
free list of agents each of which has a handoff edge to the next, the last
closing back to the first. -/
def isCycle : List AgentName → Prop
  | [] => False
  | a :: rest =>
      (a :: rest).Nodup ∧ List.Chain (fun x y => hasEdge x y = true) a (rest ++ [a])

/-- `random.randint(100, 999)` of `src/app.py` line 159, modelled as a
seed-indexed value: every value it can produce, for every seed. -/
def randint_100_999 (seed : Nat) : Nat :=
  100 + seed % 900

/-- The `on_account_management_handoff` hook (`src/app.py` lines 158-160):
stamps `user_id` with the string `ID-` followed by `random.randint(100,
999)`, leaving the other context fields alone. -/
def on_account_management_handoff (seed : Nat) (ctx : MultiAgentContext) :
    MultiAgentContext :=
  { ctx with user_id := some ("ID-" ++ toString (randint_100_999 seed)) }

/-- The generic apology string returned to the user on any caught error
(`src/app.py` lines 129 and 301). -/
def apologyMessage : String :=
  "I\x27m sorry, I encountered an error while processing your request. Please try again."

/-- The `update_user_name` tool (`src/app.py` lines 132-152).  It mutates
the three identity fields of the shared context unconditionally, then
asserts that `user_id` was stamped by the incoming handoff; the assertion
failure is modelled as `Except.error` carrying the assertion message.
Returns the mutated context together with the tool outcome. -/
def update_user_name (ctx : MultiAgentContext)
    (user_name image_path birth_date : String) :
    MultiAgentContext × Except String String :=
  let ctx2 : MultiAgentContext :=
    { ctx with
      user_name := some user_name
      image_path := some image_path
      birth_date := some birth_date }
  match ctx2.user_id with
  | none => (ctx2, Except.error "User ID is required")
  | some _ =>
      (ctx2, Except.ok ("Updated user name to " ++ user_name ++
        ". ID image saved successfully."))

/-- One event arriving on the remote agent stream inside `faq_lookup_tool`
(`src/app.py` lines 94-110): a message delta chunk, a `ThreadRun` status
update carrying a status string and a last error, the
`AgentStreamEvent.ERROR` event, or any other event the loop ignores. -/
inductive StreamEvent where
  | messageDelta (text : String)
  | threadRun (status : String) (last_error : String)
  | errorEvent (data : String)
  | other
deriving DecidableEq, Repr

/-- The event loop of `faq_lookup_tool` (`src/app.py` lines 95-110): a
`ThreadRun` with status `failed` raises, an `AgentStreamEvent.ERROR`
raises, every other event is consumed (delta chunks are streamed to the
UI step, which we do not track). -/
def processStream : List StreamEvent → Except String Unit
  | [] => Except.ok ()
  | StreamEvent.threadRun status last_error :: rest =>
      if status = "failed" then Except.error last_error else processStream rest
  | StreamEvent.errorEvent data :: _ =>
      Except.error data
  | StreamEvent.messageDelta _ :: rest => processStream rest
  | StreamEvent.other :: rest => processStream rest

/-- The `faq_lookup_tool` body (`src/app.py` lines 72-129), with the
remote interaction abstracted: `events` is the stream produced by the
remote run and `last_msg` is what `list_messages` /
`get_last_text_message_by_role(MessageRole.AGENT)` yields afterwards
(`none` when there is no agent message).  Any raised exception is caught
by the broad handler and turned into the apology string; on success the
thread id is appended to the pending-deletion list.  Returns the text
given back to the calling agent and the updated pending-deletion list. -/
def faq_lookup_tool (thread_id : String) (events : List StreamEvent)
    (last_msg : Option String) (delete_threads : List String) :
    String × List String :=
  match processStream events with
  | Except.error _ => (apologyMessage, delete_threads)
  | Except.ok _ =>
      match last_msg with
      | none => (apologyMessage, delete_threads)
      | some m => (m, delete_threads ++ [thread_id])

/-- One entry of the accumulated input/output item list
(`input_items.append({"content": user_input, "role": "user"})`,
`src/app.py` line 272). -/
structure InputItem where
  content : String
  role : String
deriving DecidableEq, Repr

/-- What a successful `Runner.run_streamed` run yields once its stream is
exhausted (`src/app.py` lines 274-297): the agent owning the conversation
at the end (`result.last_agent`), the full item log
(`result.to_input_list()`), and the streamed text shown to the user. -/
structure RunResult where
  last_agent : AgentName
  to_input_list : List InputItem
  final_text : String

/-- The per-session state stored in `cl.user_session` by `on_chat_start`
(`src/app.py` lines 329-343) and updated by `main`: current owning agent,
accumulated item log, shared conversation context, and the
per-remote-agent thread map (agent id to thread id). -/
structure SessionState where
  current_agent : AgentName
  input_items : List InputItem
  context : MultiAgentContext
  new_threads : List (String × String)

/-- The `try` block of `main` (`src/app.py` lines 271-301): the user
message is appended in place to the session's shared input-item list,
then the current agent runs; `run` is the outcome of that remote run.  On
success the session's current agent and item log are replaced from the
result and the streamed text is shown; on any exception the handler logs
and shows the apology string, leaving `current_agent` as it was — but the
item list the session holds was already mutated in place by the append,
so the user message stays in it.  Returns the new session state and the
final message content. -/
def runAgentPhase (st : SessionState) (user_input : String)
    (run : Except String RunResult) : SessionState × String :=
  let items2 := st.input_items ++ [⟨user_input, "user"⟩]
  match run with
  | Except.ok r =>
      ({ st with current_agent := r.last_agent, input_items := r.to_input_list },
       r.final_text)
  | Except.error _ =>
      ({ st with input_items := items2 }, apologyMessage)

/-- The thread-deletion loop of `main` (`src/app.py` lines 307-313):
`del` is the remote `delete_thread` call, which may fail; each failure is
caught inside the loop body and only printed.  Returns the list of thread
ids for which a deletion attempt was made, in order. -/
def deleteLoop (del : String → Except String Unit) :
    List String → List String
  | [] => []
  | t :: rest =>
      match del t with
      | Except.ok _ => t :: deleteLoop del rest
      | Except.error _ => t :: deleteLoop del rest

/-- The thread-replacement loop of `main` (`src/app.py` lines 316-323):
for every key of `new_threads` whose thread id was scheduled for deletion
this turn, a fresh thread is created and the map entry is overwritten
with its id.  `fresh k` is the id of the `k`-th thread the remote service
creates during this loop; `c` counts the creations made so far. -/
def replaceLoop (fresh : Nat → String) (delete_threads : List String) :
    List (String × String) → Nat → List (String × String)
  | [], _ => []
  | (k, v) :: rest, c =>
      if v ∈ delete_threads then
        (k, fresh c) :: replaceLoop fresh delete_threads rest (c + 1)
      else
        (k, v) :: replaceLoop fresh delete_threads rest c

/-- The post-processing tail of `main` (`src/app.py` lines 306-325): run
the best-effort deletion loop over the pending-deletion list, then
replace every scheduled thread id in the session's thread map with a
freshly created one.  Returns the attempted deletions and the updated
thread map. -/
def postProcess (del : String → Except String Unit) (fresh : Nat → String)
    (delete_threads : List String) (new_threads : List (String × String)) :
    List String × List (String × String) :=
  (deleteLoop del delete_threads,
   replaceLoop fresh delete_threads new_threads 0)

/-- The `on_chat_start` callback (`src/app.py` lines 329-343):
initialises the session with the triage agent as owner, an empty item
log, a freshly constructed (all-`None`) context, and one remote thread
created for the FAQ agent. -/
def on_chat_start (faq_agent_id : String) (thread_id : String) :
    SessionState :=
  { current_agent := .Triage
    input_items := []
    context := {}
    new_threads := [(faq_agent_id, thread_id)] }

/-- The two operations of the program that mutate the shared conversation
context: the Triage → AccountManagement handoff hook and the
`update_user_name` tool (its context mutation, `src/app.py` lines
145-147). -/
inductive ContextOp where
  | handoffHook (seed : Nat)
  | updateName (user_name image_path birth_date : String)

/-- Apply one context-mutating operation to the shared context. -/
def applyOp (op : ContextOp) (ctx : MultiAgentContext) : MultiAgentContext :=
  match op with
  | .handoffHook seed => on_account_management_handoff seed ctx
  | .updateName un ip bd => (update_user_name ctx un ip bd).1

/-! ## Theorems -/

/-- C4: at chat-session start the owning agent is Triage, the item log is
empty, and the freshly constructed context has all four fields `None`. -/
theorem on_chat_start_initializes_session (faq_agent_id thread_id : String) :
    (on_chat_start faq_agent_id thread_id).current_agent = AgentName.Triage
  ∧ (on_chat_start faq_agent_id thread_id).input_items = []
  ∧ (on_chat_start faq_agent_id thread_id).context.user_name = none
  ∧ (on_chat_start faq_agent_id thread_id).context.image_path = none
  ∧ (on_chat_start faq_agent_id thread_id).context.birth_date = none
  ∧ (on_chat_start faq_agent_id thread_id).context.user_id = none :=
  ⟨rfl, rfl, rfl, rfl, rfl, rfl⟩

/-- C5: every invocation of `update_user_name` sets the context's
`user_name`, `image_path` and `birth_date` to exactly its arguments, and
when the assertion passes the tool returns the success string built from
the new user name. -/
theorem update_user_name_updates_context (ctx : MultiAgentContext)
    (un ip bd : String) :
    (update_user_name ctx un ip bd).1.user_name = some un
  ∧ (update_user_name ctx un ip bd).1.image_path = some ip
  ∧ (update_user_name ctx un ip bd).1.birth_date = some bd
  ∧ (ctx.user_id ≠ none →
      (update_user_name ctx un ip bd).2 =
        Except.ok ("Updated user name to " ++ un ++
          ". ID image saved successfully.")) := by
  refine ⟨?_, ?_, ?_, ?_⟩ <;>
    · simp only [update_user_name]
      cases h : ctx.user_id <;> simp_all

/-- C5 witness: a concrete invocation with the user id already stamped. -/
theorem update_user_name_updates_context_witness :
    (update_user_name { user_id := some "ID-123" } "alice" "id.png" "2000-01-01").1.user_name
      = some "alice"
  ∧ (update_user_name { user_id := some "ID-123" } "alice" "id.png" "2000-01-01").2 =
      Except.ok ("Updated user name to " ++ "alice" ++
        ". ID image saved successfully.") :=
  ⟨(update_user_name_updates_context { user_id := some "ID-123" }
      "alice" "id.png" "2000-01-01").1,
   (update_user_name_updates_context { user_id := some "ID-123" }
      "alice" "id.png" "2000-01-01").2.2.2 (by simp)⟩

/-- C2: the only handoff edge carrying a hook is Triage →
AccountManagement, and the hook stamps `user_id` with `ID-` followed by an
integer between 100 and 999 inclusive while leaving the other three
context fields unchanged. -/
theorem account_management_hook_only_and_stamps_id :
    (∀ a : AgentName, ∀ d ∈ handoffsOf a, d.hook.isSome →
        a = AgentName.Triage ∧ d.target = AgentName.AccountManagement)
  ∧ (∀ seed : Nat, ∀ ctx : MultiAgentContext,
        (100 ≤ randint_100_999 seed ∧ randint_100_999 seed ≤ 999)
      ∧ (on_account_management_handoff seed ctx).user_id =
          some ("ID-" ++ toString (randint_100_999 seed))
      ∧ (on_account_management_handoff seed ctx).user_name = ctx.user_name
      ∧ (on_account_management_handoff seed ctx).image_path = ctx.image_path
      ∧ (on_account_management_handoff seed ctx).birth_date = ctx.birth_date) := by
  constructor
  · intro a d hd hh
    cases a <;> simp_all [handoffsOf, triage_agent_handoffs, faq_agent_handoffs,
      account_management_agent_handoffs, live_agent_handoffs,
      faq_agent_handoffs_init, account_management_agent_handoffs_init,
      live_agent_handoffs_init]
    rcases hd with h | h | h <;> simp_all
  · intro seed ctx
    refine ⟨⟨Nat.le_add_right 100 (seed % 900), ?_⟩, rfl, rfl, rfl, rfl⟩
    have h : seed % 900 < 900 := Nat.mod_lt seed (by norm_num)
    simp only [randint_100_999]
    omega

/-- C2 witness: the hook at a concrete seed and context. -/
theorem account_management_hook_only_and_stamps_id_witness :
    triage_agent_handoffs.head?.map HandoffDecl.target =
        some AgentName.AccountManagement
  ∧ (on_account_management_handoff 23 {}).user_id = some "ID-123" :=
  ⟨((account_management_hook_only_and_stamps_id.1 AgentName.Triage
      ⟨AgentName.AccountManagement, some Hook.onAccountManagementHandoff⟩
      (by simp [handoffsOf, triage_agent_handoffs]) rfl).2 ▸ rfl),
   (account_management_hook_only_and_stamps_id.2 23 {}).2.1⟩

/-- C8: when running the current agent raises, the stored owning agent is
unchanged, but the user message was already appended in place to the
session's shared item list before the failure, so the turn is not
atomic. -/
theorem failed_turn_keeps_agent_but_appends_input (st : SessionState)
    (user_input err : String) :
    (runAgentPhase st user_input (Except.error err)).1.current_agent =
        st.current_agent
  ∧ (runAgentPhase st user_input (Except.error err)).1.input_items =
        st.input_items ++ [⟨user_input, "user"⟩] :=
  ⟨rfl, rfl⟩

/-- C6: thread cleanup is best-effort — every pending thread gets a
deletion attempt no matter which deletions fail, and the subsequent
replacement-thread creation is unaffected by those failures. -/
theorem thread_cleanup_best_effort (del : String → Except String Unit)
    (fresh : Nat → String) (delete_threads : List String)
    (new_threads : List (String × String)) :
    deleteLoop del delete_threads = delete_threads
  ∧ postProcess del fresh delete_threads new_threads =
      postProcess (fun _ => Except.ok ()) fresh delete_threads new_threads := by
  have hdel : ∀ ts : List String, deleteLoop del ts = ts := by
    intro ts
    induction ts with
    | nil => rfl
    | cons t rest ih =>
        simp only [deleteLoop]
        cases del t <;> simp [ih]
  refine ⟨hdel delete_threads, ?_⟩
  simp only [postProcess, hdel delete_threads]
  have : deleteLoop (fun _ => Except.ok ()) delete_threads = delete_threads := by
    induction delete_threads with
    | nil => rfl
    | cons t rest ih => simp [deleteLoop, ih]
  rw [this]

/-- C3: every failure during message processing — a failed thread run, a
stream error event, a missing agent response in the FAQ lookup, or an
exception from running the current agent in `main` — is caught and turns
into the fixed apology string shown to the user. -/
theorem failures_yield_apology :
    (∀ (tid : String) (events : List StreamEvent) (m : Option String)
        (dt : List String) (e : String),
      processStream events = Except.error e →
        (faq_lookup_tool tid events m dt).1 = apologyMessage)
  ∧ (∀ (tid : String) (events : List StreamEvent) (dt : List String),
      processStream events = Except.ok () →
        (faq_lookup_tool tid events none dt).1 = apologyMessage)
  ∧ (∀ (err : String) (rest : List StreamEvent),
      processStream (StreamEvent.threadRun "failed" err :: rest) =
        Except.error err)
  ∧ (∀ (data : String) (rest : List StreamEvent),
      processStream (StreamEvent.errorEvent data :: rest) = Except.error data)
  ∧ (∀ (st : SessionState) (user_input err : String),
      (runAgentPhase st user_input (Except.error err)).2 = apologyMessage) := by
  refine ⟨?_, ?_, ?_, ?_, ?_⟩
  · intro tid events m dt e h
    simp [faq_lookup_tool, h]
  · intro tid events dt h
    simp [faq_lookup_tool, h]
  · intro err rest
    simp [processStream]
  · intro data rest
    rfl
  · intro st user_input err
    rfl

/-- C3 witness: a failed run, an error event, a missing response, and a
raising `main` turn, each at concrete inputs. -/
theorem failures_yield_apology_witness :
    (faq_lookup_tool "t1" [StreamEvent.threadRun "failed" "boom"] (some "hi") []).1
        = apologyMessage
  ∧ (faq_lookup_tool "t1" [StreamEvent.errorEvent "oops"] (some "hi") []).1
        = apologyMessage
  ∧ (faq_lookup_tool "t1" [] none []).1 = apologyMessage
  ∧ (runAgentPhase (on_chat_start "f" "t") "hello" (Except.error "down")).2
        = apologyMessage :=
  ⟨failures_yield_apology.1 "t1" [StreamEvent.threadRun "failed" "boom"]
      (some "hi") [] "boom" (by simp [processStream]),
   failures_yield_apology.1 "t1" [StreamEvent.errorEvent "oops"]
      (some "hi") [] "oops" rfl,
   failures_yield_apology.2.1 "t1" [] [] rfl,
   failures_yield_apology.2.2.2.2 (on_chat_start "f" "t") "hello" "down"⟩

/-- `update_user_name` never touches the `user_id` field of the shared
context. -/
lemma update_user_name_preserves_user_id (ctx : MultiAgentContext)
    (un ip bd : String) :
    (update_user_name ctx un ip bd).1.user_id = ctx.user_id := by
  simp only [update_user_name]
  cases h : ctx.user_id <;> simp_all

/-- No context-mutating operation of the program resets `user_id` to
`None` once it is set. -/
lemma applyOp_preserves_user_id_isSome (op : ContextOp)
    (ctx : MultiAgentContext) (h : ctx.user_id ≠ none) :
    (applyOp op ctx).user_id ≠ none := by
  cases op with
  | handoffHook seed => simp [applyOp, on_account_management_handoff]
  | updateName un ip bd =>
      simpa [applyOp, update_user_name_preserves_user_id] using h

/-- C10: after the Triage → AccountManagement handoff hook has run on the
session's context, `user_id` stays a non-`None` string through any
sequence of the program's context-mutating operations, so the
`User ID is required` assertion in `update_user_name` cannot fail. -/
theorem hook_makes_assert_unfailable (seed : Nat) (ctx : MultiAgentContext)
    (ops : List ContextOp) :
    (ops.foldl (fun c op => applyOp op c)
        (on_account_management_handoff seed ctx)).user_id ≠ none
  ∧ ∀ un ip bd : String, ∃ s : String,
      (update_user_name
        (ops.foldl (fun c op => applyOp op c)
          (on_account_management_handoff seed ctx)) un ip bd).2 =
        Except.ok s := by
  have hinv : ∀ (l : List ContextOp) (c : MultiAgentContext),
      c.user_id ≠ none →
      (l.foldl (fun c op => applyOp op c) c).user_id ≠ none := by
    intro l
    induction l with
    | nil => intro c hc; exact hc
    | cons op rest ih =>
        intro c hc
        exact ih (applyOp op c) (applyOp_preserves_user_id_isSome op c hc)
  have h0 : (on_account_management_handoff seed ctx).user_id ≠ none := by
    simp [on_account_management_handoff]
  have hid := hinv ops (on_account_management_handoff seed ctx) h0
  refine ⟨hid, ?_⟩
  intro un ip bd
  simp only [update_user_name]
  cases h : (ops.foldl (fun c op => applyOp op c)
      (on_account_management_handoff seed ctx)).user_id with
  | none => exact absurd h hid
  | some v =>
      exact ⟨"Updated user name to " ++ un ++ ". ID image saved successfully.",
        by simp [h]⟩

/-- C9: the turn-end replacement loop rewrites exactly the thread-map
entries whose id was scheduled for deletion, giving each a freshly
created id, so no id scheduled for deletion survives into the next
turn. -/
theorem deleted_threads_replaced (fresh : Nat → String)
    (delete_threads : List String) (new_threads : List (String × String))
    (c : Nat) (hfresh : ∀ k, fresh k ∉ delete_threads) :
    List.Forall₂ (fun old new => old.1 = new.1
        ∧ (old.2 ∈ delete_threads → ∃ j, new.2 = fresh j)
        ∧ (old.2 ∉ delete_threads → new.2 = old.2))
      new_threads (replaceLoop fresh delete_threads new_threads c)
  ∧ ∀ p ∈ replaceLoop fresh delete_threads new_threads c,
      p.2 ∉ delete_threads := by
  induction new_threads generalizing c with
  | nil =>
      exact ⟨List.Forall₂.nil, by simp [replaceLoop]⟩
  | cons p rest ih =>
      obtain ⟨k, v⟩ := p
      by_cases hv : v ∈ delete_threads
      · simp only [replaceLoop, if_pos hv]
        refine ⟨List.Forall₂.cons ⟨rfl, fun _ => ⟨c, rfl⟩,
          fun h => absurd hv h⟩ (ih (c + 1)).1, ?_⟩
        intro q hq
        rcases List.mem_cons.mp hq with hq | hq
        · subst hq; exact hfresh c
        · exact (ih (c + 1)).2 q hq
      · simp only [replaceLoop, if_neg hv]
        refine ⟨List.Forall₂.cons ⟨rfl, fun h => absurd h hv,
          fun _ => rfl⟩ (ih c).1, ?_⟩
        intro q hq
        rcases List.mem_cons.mp hq with hq | hq
        · subst hq; exact hv
        · exact (ih c).2 q hq

/-- C9 witness: one scheduled entry replaced by a fresh id at concrete
inputs. -/
theorem deleted_threads_replaced_witness :
    replaceLoop (fun _ => "b") ["a"] [("faq", "a")] 0 = [("faq", "b")]
  ∧ ("faq", "b").2 ∉ ["a"] :=
  ⟨by simp [replaceLoop],
   (deleted_threads_replaced (fun _ => "b") ["a"] [("faq", "a")] 0
      (fun k => by simp)).2 ("faq", "b") (by simp [replaceLoop])⟩

/-- C6 witness: a deletion call that always fails still attempts both
pending threads and leaves the replacement phase unchanged. -/
theorem thread_cleanup_best_effort_witness :
    deleteLoop (fun _ => Except.error "down") ["t1", "t2"] = ["t1", "t2"]
  ∧ postProcess (fun _ => Except.error "down") (fun k => toString k)
      ["t1", "t2"] [("faq", "t1")] =
    postProcess (fun _ => Except.ok ()) (fun k => toString k)
      ["t1", "t2"] [("faq", "t1")] :=
  thread_cleanup_best_effort (fun _ => Except.error "down")
    (fun k => toString k) ["t1", "t2"] [("faq", "t1")]

/-- C8 witness: a raising run on a fresh session keeps Triage as owner
while the user message is already in the item log. -/
theorem failed_turn_keeps_agent_but_appends_input_witness :
    (runAgentPhase (on_chat_start "f" "t") "hi" (Except.error "e")).1.current_agent
        = AgentName.Triage
  ∧ (runAgentPhase (on_chat_start "f" "t") "hi" (Except.error "e")).1.input_items
        = [⟨"hi", "user"⟩] := by
  have h := failed_turn_keeps_agent_but_appends_input (on_chat_start "f" "t") "hi" "e"
  exact ⟨h.1, by rw [h.2]; rfl⟩

/-- C10 witness: after the hook and one tool call, the user id is still
set and a further tool call succeeds. -/
theorem hook_makes_assert_unfailable_witness :
    (List.foldl (fun c op => applyOp op c)
        (on_account_management_handoff 0 {})
        [ContextOp.updateName "alice" "id.png" "2000-01-01"]).user_id ≠ none
  ∧ ∃ s : String,
      (update_user_name
        (List.foldl (fun c op => applyOp op c)
          (on_account_management_handoff 0 {})
          [ContextOp.updateName "alice" "id.png" "2000-01-01"])
        "bob" "p.png" "1999-01-01").2 = Except.ok s :=
  ⟨(hook_makes_assert_unfailable 0 {}
      [ContextOp.updateName "alice" "id.png" "2000-01-01"]).1,
   (hook_makes_assert_unfailable 0 {}
      [ContextOp.updateName "alice" "id.png" "2000-01-01"]).2
      "bob" "p.png" "1999-01-01"⟩

/-- Every edge of the handoff graph touches the Triage agent. -/
lemma hasEdge_incident : ∀ a b : AgentName, hasEdge a b = true →
    a = AgentName.Triage ∨ b = AgentName.Triage := by
  intro a b
  cases a <;> cases b <;> decide

/-- The handoff graph has no self-loop. -/
lemma hasEdge_irrefl : ∀ a : AgentName, hasEdge a a = false := by
  intro a
  cases a <;> decide

/-- A mutual pair of handoff edges always joins Triage with a
specialist. -/
lemma hasEdge_mutual : ∀ a b : AgentName,
    hasEdge a b = true → hasEdge b a = true →
    (a = AgentName.Triage ∧ b ≠ AgentName.Triage)
  ∨ (b = AgentName.Triage ∧ a ≠ AgentName.Triage) := by
  intro a b
  cases a <;> cases b <;> decide

/-- Every simple cycle of the handoff graph is one of the mutual
Triage-specialist pairs. -/
lemma cycle_shape : ∀ l : List AgentName, isCycle l →
    ∃ s, s ≠ AgentName.Triage ∧
      (l = [AgentName.Triage, s] ∨ l = [s, AgentName.Triage]) := by
  intro l hl
  match l with
  | [] => exact absurd hl (by simp [isCycle])
  | [a] =>
      obtain ⟨-, hchain⟩ := hl
      rw [List.nil_append, List.chain_cons] at hchain
      exact absurd hchain.1 (by simp [hasEdge_irrefl a])
  | [a, b] =>
      obtain ⟨hnd, hchain⟩ := hl
      rw [List.cons_append, List.nil_append, List.chain_cons,
        List.chain_cons] at hchain
      obtain ⟨hab, hba, -⟩ := hchain
      rcases hasEdge_mutual a b hab hba with ⟨ha, hb⟩ | ⟨hb, ha⟩
      · exact ⟨b, hb, Or.inl (by rw [ha])⟩
      · exact ⟨a, ha, Or.inr (by rw [hb])⟩
  | a :: b :: c :: rest =>
      exfalso
      obtain ⟨hnd, hchain⟩ := hl
      simp only [List.cons_append, List.chain_cons] at hchain
      obtain ⟨hab, hbc, hcc⟩ := hchain
      simp only [List.nodup_cons, List.mem_cons] at hnd
      push_neg at hnd
      obtain ⟨⟨hnab, hnac, -⟩, ⟨hnbc, hnbr⟩, hncr, -⟩ := hnd
      by_cases hbT : b = AgentName.Triage
      · have hcT : c ≠ AgentName.Triage := fun h => hnbc (hbT.trans h.symm)
        rcases rest with _ | ⟨d, rest2⟩
        · rw [List.nil_append, List.chain_cons] at hcc
          obtain ⟨hca, -⟩ := hcc
          rcases hasEdge_incident c a hca with h | h
          · exact hcT h
          · exact hnab (h.trans hbT.symm)
        · rw [List.cons_append, List.chain_cons] at hcc
          obtain ⟨hcd, -⟩ := hcc
          rcases hasEdge_incident c d hcd with h | h
          · exact hcT h
          · exact hnbr (List.mem_cons.mpr (Or.inl (hbT.trans h.symm)))
      · rcases hasEdge_incident a b hab with haT | hbT'
        · rcases hasEdge_incident b c hbc with h | hcT
          · exact hbT h
          · exact hnac (haT.trans hcT.symm)
        · exact hbT hbT'

/-- C1: the graph has exactly the four states; Triage's outbound edges go
to exactly the three specialists; after construction each specialist's
single outbound edge returns to Triage; and the only simple cycles are
the mutual Triage-specialist pairs. -/
theorem handoff_graph_shape :
    (∀ a : AgentName, a = AgentName.Triage ∨ a = AgentName.FAQ
        ∨ a = AgentName.AccountManagement ∨ a = AgentName.Live)
  ∧ handoffTargets AgentName.Triage =
      [AgentName.AccountManagement, AgentName.FAQ, AgentName.Live]
  ∧ (∀ s : AgentName, s ≠ AgentName.Triage →
        handoffsOf s = [⟨AgentName.Triage, none⟩])
  ∧ (∀ l : List AgentName, isCycle l →
        ∃ s, s ≠ AgentName.Triage ∧
          (l = [AgentName.Triage, s] ∨ l = [s, AgentName.Triage]))
  ∧ (∀ s : AgentName, s ≠ AgentName.Triage →
        isCycle [AgentName.Triage, s]) := by
  refine ⟨?_, rfl, ?_, cycle_shape, ?_⟩
  · intro a
    cases a <;> simp
  · intro s hs
    cases s
    · exact absurd rfl hs
    · rfl
    · rfl
    · rfl
  · intro s hs
    cases s
    · exact absurd rfl hs
    all_goals
      exact ⟨by decide,
        List.Chain.cons (by decide) (List.Chain.cons (by decide) List.Chain.nil)⟩

/-- C1 witness: the FAQ specialist's single back-edge and the concrete
Triage-FAQ cycle, recognised as such. -/
theorem handoff_graph_shape_witness :
    handoffsOf AgentName.FAQ = [⟨AgentName.Triage, none⟩]
  ∧ isCycle [AgentName.Triage, AgentName.FAQ]
  ∧ (AgentName.FAQ ≠ AgentName.Triage ∧
      ([AgentName.Triage, AgentName.FAQ] =
          [AgentName.Triage, AgentName.FAQ]
        ∨ [AgentName.Triage, AgentName.FAQ] =
          [AgentName.FAQ, AgentName.Triage])) := by
  have hcyc := handoff_graph_shape.2.2.2.2 AgentName.FAQ (by decide)
  refine ⟨handoff_graph_shape.2.2.1 AgentName.FAQ (by decide), hcyc, ?_⟩
  obtain ⟨s, hs, hshape⟩ :=
    handoff_graph_shape.2.2.2.1 [AgentName.Triage, AgentName.FAQ] hcyc
  rcases hshape with h | h
  · cases h
    exact ⟨hs, Or.inl rfl⟩
  · cases h

end MultiAgentPOC
